import Mathlib

/-!
# Saturator: the diode-clipper stage solver (Source/DiodeClipper.h)

A shallow embedding of the class DiodeClipper and a verification of its specification.

The C++ code computes on the type float.  The embedding is written once, over any carrier
F that provides the operations the code uses (the class FloatArith below), and it is
read in two ways:

* exact arithmetic: F is an ordered field (the reals, with the real exponential); rounding
  is not modelled, every operation is exact;
* special values: F is FVal K, an ordered field K extended by NaN and the two infinities,
  with the IEEE-754 rules for them and overflow of finite results of magnitude at least
  2^128 (rounding of finite results and the sign of zero are not modelled).

Structural properties (sizes, frame conditions) are proved for every carrier.
-/

/-- Operations of the C++ type float that the solver uses: the four arithmetic operations,
unary minus, the comparison, decimal literals and std::abs. -/
class FloatArith (F : Type) extends Add F, Sub F, Mul F, Div F, Neg F, LT F, OfScientific F where
  /-- The function std::abs. -/
  abs : F → F
  /-- The comparison is a test the program can branch on. -/
  decLt : DecidableRel (α := F) (fun a b => a < b)

instance FloatArith.instDecidableLt {F : Type} [FloatArith F] :
    DecidableRel (α := F) (fun a b => a < b) :=
  FloatArith.decLt

/-- Exact arithmetic: every linearly ordered field carries the operations. -/
instance (priority := low) FloatArith.ofField {K : Type} [LinearOrderedField K] :
    FloatArith K where
  abs := fun x => |x|
  decLt := inferInstance

/-! ## Special values of the type float -/

/-- Values of a float: not-a-number, minus infinity, plus infinity, or a finite value. -/
inductive FVal (K : Type) where
  | nan : FVal K
  | ninf : FVal K
  | pinf : FVal K
  | fin (x : K) : FVal K
  deriving DecidableEq

namespace FVal
variable {K : Type} [LinearOrderedField K]

/-- The result of an operation whose exact value is x: it overflows to an infinity when
its magnitude reaches 2^128 (every binary32 operation overflows there). -/
def ofExact (x : K) : FVal K :=
  if (2 : K) ^ 128 ≤ x then pinf
  else if x ≤ -((2 : K) ^ 128) then ninf
  else fin x

/-- Unary minus. -/
def neg : FVal K → FVal K
  | nan => nan
  | ninf => pinf
  | pinf => ninf
  | fin x => fin (-x)

/-- Addition: infinities of opposite sign add up to NaN. -/
def add : FVal K → FVal K → FVal K
  | nan, _ => nan
  | _, nan => nan
  | pinf, ninf => nan
  | ninf, pinf => nan
  | pinf, _ => pinf
  | _, pinf => pinf
  | ninf, _ => ninf
  | _, ninf => ninf
  | fin x, fin y => ofExact (x + y)

/-- Subtraction is addition of the negated operand. -/
def sub (a b : FVal K) : FVal K := add a (neg b)

/-- An infinity with the sign of x times the sign of the infinity; zero times infinity is
NaN. -/
def scaleInf (positive : Bool) (x : K) : FVal K :=
  if x = 0 then nan
  else if 0 < x then (if positive then pinf else ninf)
  else (if positive then ninf else pinf)

/-- Multiplication. -/
def mul : FVal K → FVal K → FVal K
  | nan, _ => nan
  | _, nan => nan
  | pinf, pinf => pinf
  | ninf, ninf => pinf
  | pinf, ninf => ninf
  | ninf, pinf => ninf
  | pinf, fin y => scaleInf true y
  | ninf, fin y => scaleInf false y
  | fin x, pinf => scaleInf true x
  | fin x, ninf => scaleInf false x
  | fin x, fin y => ofExact (x * y)

/-- Division: infinity over infinity and zero over zero are NaN, a finite value over an
infinity is zero, a non-zero value over zero is an infinity (zero counts as positive). -/
def div : FVal K → FVal K → FVal K
  | nan, _ => nan
  | _, nan => nan
  | pinf, pinf => nan
  | pinf, ninf => nan
  | ninf, pinf => nan
  | ninf, ninf => nan
  | pinf, fin y => if 0 ≤ y then pinf else ninf
  | ninf, fin y => if 0 ≤ y then ninf else pinf
  | fin _, pinf => fin 0
  | fin _, ninf => fin 0
  | fin x, fin y =>
    if y = 0 then (if x = 0 then nan else if 0 < x then pinf else ninf)
    else ofExact (x / y)

/-- The comparison operator; every comparison with NaN is false. -/
def blt : FVal K → FVal K → Bool
  | nan, _ => false
  | _, nan => false
  | ninf, ninf => false
  | ninf, _ => true
  | _, ninf => false
  | pinf, _ => false
  | fin _, pinf => true
  | fin x, fin y => decide (x < y)

/-- The comparison operator <=; every comparison with NaN is false. -/
def ble : FVal K → FVal K → Bool
  | nan, _ => false
  | _, nan => false
  | ninf, _ => true
  | _, pinf => true
  | pinf, _ => false
  | fin _, ninf => false
  | fin x, fin y => decide (x ≤ y)

/-- The function std::abs. -/
def abs : FVal K → FVal K
  | nan => nan
  | ninf => pinf
  | pinf => pinf
  | fin x => fin |x|

/-- The function std::exp, from an exponential e on the finite values. -/
def exp (e : K → K) : FVal K → FVal K
  | nan => nan
  | ninf => fin 0
  | pinf => pinf
  | fin x => ofExact (e x)

end FVal

/-- Float arithmetic with special values over an ordered field of finite values. -/
instance FVal.instFloatArith {K : Type} [LinearOrderedField K] : FloatArith (FVal K) where
  add := FVal.add
  sub := FVal.sub
  mul := FVal.mul
  div := FVal.div
  neg := FVal.neg
  lt := fun a b => FVal.blt a b = true
  ofScientific := fun m s e => FVal.ofExact (OfScientific.ofScientific m s e)
  abs := FVal.abs
  decLt := fun a b => inferInstanceAs (Decidable (FVal.blt a b = true))

/-! ## The solver -/

/-- The failure conditions named by the specification; the source signals neither. -/
inductive SolverError where
  | InvalidConfiguration : SolverError
  | IndexOutOfRange : SolverError
  deriving DecidableEq

/-- The fields of juce::dsp::ProcessSpec (a JUCE type, declared outside the repository). -/
structure ProcessSpec (F : Type) where
  sampleRate : F
  maximumBlockSize : Nat
  numChannels : Nat

/-- The mutable members of the class: the sample rate and the capacitor voltage of each
channel. -/
structure DiodeClipper (F : Type) where
  sampleRate : F
  state : List F

/-- The call v.resize(n, value) of std::vector: the first n elements are kept, and the
vector is padded with value up to length n. -/
def vectorResize {F : Type} (xs : List F) (n : Nat) (value : F) : List F :=
  xs.take n ++ List.replicate (n - xs.length) value

namespace DiodeClipper
variable {F : Type} [FloatArith F]

/-- A default-constructed object: sampleRate = 44100.0f and an empty state vector. -/
def init : DiodeClipper F := { sampleRate := 44100.0, state := [] }

/-- The method prepare: the conversion of the sample rate to float is the identity of the
carrier. -/
def prepare (s : DiodeClipper F) (spec : ProcessSpec F) : DiodeClipper F :=
  { sampleRate := spec.sampleRate, state := vectorResize s.state spec.numChannels 0.0 }

/-- The method reset: std::fill of the state with 0.0f. -/
def reset (s : DiodeClipper F) : DiodeClipper F :=
  { s with state := s.state.map (fun _ => 0.0) }

/-- Resistor, 2.2k. -/
def R : F := 2200.0
/-- Capacitor, 10nF. -/
def C : F := 0.00000001
/-- Saturation current of the diode. -/
def Is : F := 2.52e-9
/-- Thermal voltage at room temperature. -/
def Vt : F := 0.026
/-- Ideality factor. -/
def eta : F := 1.752

/-- The method diodeCurrent (Shockley equation with two guards). -/
def diodeCurrent (exp : F → F) (v : F) : F :=
  if v < -(10.0 : F) * eta * Vt then
    -Is
  else if (10.0 : F) * eta * Vt < v then
    Is * exp (v / (eta * Vt))
  else
    Is * (exp (v / (eta * Vt)) - 1.0)

/-- The method diodeCurrentDerivative. -/
def diodeCurrentDerivative (exp : F → F) (v : F) : F :=
  if v < -(10.0 : F) * eta * Vt ∨ (10.0 : F) * eta * Vt < v then
    0.0
  else
    (Is / (eta * Vt)) * exp (v / (eta * Vt))

/-- The net diode current Id of one Newton-Raphson iteration. -/
def netCurrent (exp : F → F) (Vout : F) : F :=
  diodeCurrent exp Vout - diodeCurrent exp (-Vout)

/-- The derivative dId of one Newton-Raphson iteration. -/
def netCurrentDerivative (exp : F → F) (Vout : F) : F :=
  diodeCurrentDerivative exp Vout + diodeCurrentDerivative exp (-Vout)

/-- The residual f of the discretised KCL equation in one iteration; prev is
state[channel]. -/
def kclResidual (exp : F → F) (Vin prev dt Vout : F) : F :=
  (Vin - Vout) / R - C * (Vout - prev) / dt - netCurrent exp Vout

/-- The Newton denominator df of one iteration. -/
def kclDerivative (exp : F → F) (dt Vout : F) : F :=
  -(1.0 : F) / R - C / dt - netCurrentDerivative exp Vout

/-- The quotient delta = f / df of one iteration. -/
def newtonDelta (exp : F → F) (Vin prev dt Vout : F) : F :=
  kclResidual exp Vin prev dt Vout / kclDerivative exp dt Vout

/-- The loop of processSample with n iterations left: update Vout, and leave the loop when
the step was shorter than 1e-6. -/
def newtonLoop (exp : F → F) (Vin prev dt : F) : Nat → F → F
  | 0, Vout => Vout
  | n + 1, Vout =>
    let delta := newtonDelta exp Vin prev dt Vout
    if FloatArith.abs delta < 1e-6 then Vout - delta
    else newtonLoop exp Vin prev dt n (Vout - delta)

/-- The iterates of the loop of processSample with n iterations left: the values of Vout
at which Id, dId, f and df are computed, in order; the loop is the one of newtonLoop. -/
def newtonIterates (exp : F → F) (Vin prev dt : F) : Nat → F → List F
  | 0, _ => []
  | n + 1, Vout =>
    let delta := newtonDelta exp Vin prev dt Vout
    if FloatArith.abs delta < 1e-6 then [Vout]
    else Vout :: newtonIterates exp Vin prev dt n (Vout - delta)

/-- The method processSample: the returned sample and the object after the call.  An index
outside the state vector is undefined behaviour in the source; it has no result here. -/
def processSample (exp : F → F) (s : DiodeClipper F) (Vin : F) (channel : Nat) :
    Option (F × DiodeClipper F) :=
  match s.state[channel]? with
  | none => none
  | some prev =>
    let dt := (1.0 : F) / s.sampleRate
    let Vout := newtonLoop exp Vin prev dt 8 prev
    some (Vout, { s with state := s.state.set channel Vout })

/-- The inner loop of the method process: the samples of one channel, in order. -/
def processChannel (exp : F → F) (s : DiodeClipper F) (ch : Nat) :
    List F → Option (List F × DiodeClipper F)
  | [] => some ([], s)
  | x :: xs =>
    match processSample exp s x ch with
    | none => none
    | some (y, s1) =>
      match processChannel exp s1 ch xs with
      | none => none
      | some (ys, s2) => some (y :: ys, s2)

/-- What a caller of prepare (the operation configure of the specification) observes: the
method returns void and has no failing path, so the outcome is always a solver. -/
def configure (s : DiodeClipper F) (spec : ProcessSpec F) :
    Except SolverError (DiodeClipper F) :=
  Except.ok (prepare s spec)

end DiodeClipper

/-- Two solver objects that mirror each other: same sample rate, negated voltages. -/
def Mirror {F : Type} [FloatArith F] (s t : DiodeClipper F) : Prop :=
  t.sampleRate = s.sampleRate ∧ t.state = s.state.map (fun v => -v)

/-- The configuration of the concrete scenario: 44100 Hz, blocks of 512 samples, one
channel. -/
def scenarioSpec {F : Type} [FloatArith F] : ProcessSpec F :=
  { sampleRate := 44100.0, maximumBlockSize := 512, numChannels := 1 }

open DiodeClipper

/-! ## Structure of the state vector -/

theorem vectorResize_length {F : Type} (xs : List F) (n : Nat) (v : F) :
    (vectorResize xs n v).length = n := by
  unfold vectorResize
  simp only [List.length_append, List.length_take, List.length_replicate]
  omega

theorem vectorResize_getElem? {F : Type} (xs : List F) (n i : Nat) (v : F) (hi : i < n) :
    (vectorResize xs n v)[i]? = some (if h : i < xs.length then xs[i] else v) := by
  unfold vectorResize
  by_cases h : i < xs.length
  · rw [dif_pos h, List.getElem?_append_left (by simp; omega), List.getElem?_take_of_lt hi,
      List.getElem?_eq_getElem h]
  · rw [dif_neg h, List.getElem?_append_right (by simp; omega)]
    simp only [List.length_take, List.getElem?_replicate]
    rw [if_pos (by omega)]

theorem processSample_of_getElem? {F : Type} [FloatArith F] (exp : F → F)
    (s : DiodeClipper F) (Vin prev : F) (c : Nat) (hc : s.state[c]? = some prev) :
    processSample exp s Vin c =
      some (newtonLoop exp Vin prev ((1.0 : F) / s.sampleRate) 8 prev,
        { sampleRate := s.sampleRate,
          state := s.state.set c
            (newtonLoop exp Vin prev ((1.0 : F) / s.sampleRate) 8 prev) }) := by
  unfold processSample
  rw [hc]

/-- The loop returns the last iterate minus its Newton quotient. -/
theorem newtonLoop_eq_last_iterate {F : Type} [FloatArith F] (exp : F → F) (Vin prev dt : F)
    (n : Nat) (V : F) :
    newtonLoop exp Vin prev dt n V =
      match (newtonIterates exp Vin prev dt n V).getLast? with
      | none => V
      | some w => w - newtonDelta exp Vin prev dt w := by
  induction n generalizing V with
  | zero => rfl
  | succ n ih =>
    rw [newtonLoop, newtonIterates]
    by_cases h : FloatArith.abs (newtonDelta exp Vin prev dt V) < 1e-6
    · simp only [h, if_true, List.getLast?_singleton]
    · simp only [h, if_false]
      rw [ih]
      cases hr : newtonIterates exp Vin prev dt n (V - newtonDelta exp Vin prev dt V) with
      | nil => simp
      | cons a l =>
        rw [List.getLast?_eq_getLast _ (List.cons_ne_nil a l),
          List.getLast?_eq_getLast _ (List.cons_ne_nil V (a :: l)),
          List.getLast_cons (List.cons_ne_nil a l)]

/-! ## Exact arithmetic -/

namespace Exact

theorem abs_eq (x : ℝ) : FloatArith.abs x = |x| := rfl

theorem band_eq : (10.0 : ℝ) * eta * Vt = 0.45552 := by
  simp only [eta, Vt]; norm_num

theorem nband_eq : -(10.0 : ℝ) * eta * Vt = -0.45552 := by
  simp only [eta, Vt]; norm_num

theorem diodeCurrent_below (e : ℝ → ℝ) (v : ℝ) (h : v < -0.45552) :
    diodeCurrent e v = -Is := by
  unfold diodeCurrent
  rw [nband_eq, if_pos h]

theorem diodeCurrent_above (e : ℝ → ℝ) (v : ℝ) (h : 0.45552 < v) :
    diodeCurrent e v = Is * e (v / (eta * Vt)) := by
  unfold diodeCurrent
  rw [nband_eq, band_eq, if_neg (by linarith), if_pos h]

theorem diodeCurrent_inside (e : ℝ → ℝ) (v : ℝ) (h1 : -0.45552 ≤ v) (h2 : v ≤ 0.45552) :
    diodeCurrent e v = Is * (e (v / (eta * Vt)) - 1) := by
  unfold diodeCurrent
  rw [nband_eq, band_eq, if_neg (by linarith), if_neg (by linarith)]
  norm_num

theorem diodeCurrentDerivative_outside (e : ℝ → ℝ) (v : ℝ)
    (h : v < -0.45552 ∨ 0.45552 < v) : diodeCurrentDerivative e v = 0 := by
  unfold diodeCurrentDerivative
  rw [nband_eq, band_eq, if_pos h]
  norm_num

theorem diodeCurrentDerivative_inside (e : ℝ → ℝ) (v : ℝ)
    (h1 : -0.45552 ≤ v) (h2 : v ≤ 0.45552) :
    diodeCurrentDerivative e v = (Is / (eta * Vt)) * e (v / (eta * Vt)) := by
  unfold diodeCurrentDerivative
  rw [nband_eq, band_eq, if_neg (by rintro (h | h) <;> linarith)]

theorem Is_pos : (0 : ℝ) < Is := by simp only [Is]; norm_num
theorem etaVt_pos : (0 : ℝ) < eta * Vt := by simp only [eta, Vt]; norm_num
theorem R_pos : (0 : ℝ) < R := by simp only [R]; norm_num
theorem C_pos : (0 : ℝ) < C := by simp only [C]; norm_num

theorem diodeCurrentDerivative_nonneg (v : ℝ) : 0 ≤ diodeCurrentDerivative Real.exp v := by
  by_cases h : v < -0.45552 ∨ 0.45552 < v
  · rw [diodeCurrentDerivative_outside _ v h]
  · push_neg at h
    rw [diodeCurrentDerivative_inside _ v h.1 h.2]
    exact mul_nonneg (div_nonneg Is_pos.le etaVt_pos.le) (Real.exp_pos _).le

theorem zero_lit : (0.0 : ℝ) = 0 := by norm_num

theorem netCurrent_zero : netCurrent Real.exp (0 : ℝ) = 0 := by
  unfold netCurrent
  rw [neg_zero, sub_self]

theorem residual_zero (dt : ℝ) : kclResidual Real.exp 0 0 dt 0 = 0 := by
  unfold kclResidual
  rw [netCurrent_zero]
  simp

theorem newtonLoop_zero (dt : ℝ) (n : Nat) : newtonLoop Real.exp 0 0 dt n 0 = 0 := by
  cases n with
  | zero => rfl
  | succ n =>
    have hd : newtonDelta Real.exp 0 0 dt 0 = 0 := by
      unfold newtonDelta
      rw [residual_zero, zero_div]
    unfold newtonLoop
    simp only [hd, abs_eq, abs_zero, sub_zero]
    rw [if_pos (by norm_num)]

theorem reset_prepare_state (s : DiodeClipper ℝ) (spec : ProcessSpec ℝ) :
    reset (prepare s spec) =
      { sampleRate := spec.sampleRate, state := List.replicate spec.numChannels 0 } := by
  unfold reset prepare
  simp only [zero_lit, DiodeClipper.mk.injEq, true_and]
  apply List.ext_getElem
  · simp [vectorResize_length]
  · intro i h1 h2
    simp

theorem processSample_zero (sr : ℝ) (k ch : Nat) (hch : ch < k) :
    processSample Real.exp { sampleRate := sr, state := List.replicate k 0 } 0 ch =
      some (0, { sampleRate := sr, state := List.replicate k 0 }) := by
  have hget : (List.replicate k (0 : ℝ))[ch]? = some 0 := by
    simp [List.getElem?_replicate, hch]
  rw [processSample_of_getElem? Real.exp _ 0 0 ch hget, newtonLoop_zero]
  simp only [Option.some.injEq, Prod.mk.injEq, DiodeClipper.mk.injEq, true_and]
  apply List.ext_getElem
  · simp
  · intro i h1 h2
    simp [List.getElem_set]

theorem processChannel_zero (sr : ℝ) (k ch : Nat) (hch : ch < k) (n : Nat) :
    processChannel Real.exp { sampleRate := sr, state := List.replicate k 0 } ch
        (List.replicate n 0) =
      some (List.replicate n 0, { sampleRate := sr, state := List.replicate k 0 }) := by
  induction n with
  | zero => rfl
  | succ n ih =>
    rw [List.replicate_succ]
    unfold processChannel
    rw [processSample_zero sr k ch hch]
    simp only [ih]


/-! ### Odd symmetry of the step -/

theorem netCurrent_neg (e : ℝ → ℝ) (V : ℝ) : netCurrent e (-V) = -netCurrent e V := by
  unfold netCurrent
  rw [neg_neg, neg_sub]

theorem netCurrentDerivative_neg (e : ℝ → ℝ) (V : ℝ) :
    netCurrentDerivative e (-V) = netCurrentDerivative e V := by
  unfold netCurrentDerivative
  rw [neg_neg, add_comm]

theorem newtonDelta_neg (e : ℝ → ℝ) (Vin prev dt V : ℝ) :
    newtonDelta e (-Vin) (-prev) dt (-V) = -newtonDelta e Vin prev dt V := by
  unfold newtonDelta kclResidual kclDerivative
  rw [netCurrent_neg, netCurrentDerivative_neg, ← neg_div]
  congr 1
  ring

theorem newtonLoop_neg (e : ℝ → ℝ) (Vin prev dt : ℝ) (n : Nat) (V : ℝ) :
    newtonLoop e (-Vin) (-prev) dt n (-V) = -newtonLoop e Vin prev dt n V := by
  induction n generalizing V with
  | zero => rfl
  | succ n ih =>
    unfold newtonLoop
    simp only [newtonDelta_neg, abs_eq, abs_neg]
    have hstep : -V - -newtonDelta e Vin prev dt V = -(V - newtonDelta e Vin prev dt V) := by
      ring
    rw [hstep, ih]
    split_ifs <;> rfl

theorem processSample_neg (e : ℝ → ℝ) (s t : DiodeClipper ℝ) (h : Mirror s t) (Vin : ℝ)
    (ch : Nat) (hch : ch < s.state.length) :
    ∃ y s1 t1, processSample e s Vin ch = some (y, s1) ∧
      processSample e t (-Vin) ch = some (-y, t1) ∧ Mirror s1 t1 ∧
      s1.state.length = s.state.length := by
  obtain ⟨hsr, hst⟩ := h
  have hs : s.state[ch]? = some s.state[ch] := List.getElem?_eq_getElem hch
  have ht : t.state[ch]? = some (-s.state[ch]) := by
    rw [hst, List.getElem?_map, hs]
    rfl
  have h1 := processSample_of_getElem? e s Vin _ ch hs
  have h2 := processSample_of_getElem? e t (-Vin) _ ch ht
  rw [newtonLoop_neg, hsr] at h2
  refine ⟨_, _, _, h1, h2, ⟨rfl, ?_⟩, ?_⟩
  · simp only
    rw [hst, List.map_set]
  · simp only [List.length_set]

theorem processChannel_neg (e : ℝ → ℝ) (ch : Nat) (xs : List ℝ) :
    ∀ (s t : DiodeClipper ℝ), Mirror s t → ch < s.state.length →
    ∃ ys s1 t1, processChannel e s ch xs = some (ys, s1) ∧
      processChannel e t ch (xs.map (fun v => -v)) = some (ys.map (fun v => -v), t1) ∧
      ys.length = xs.length := by
  induction xs with
  | nil => intro s t _ _; exact ⟨[], s, t, rfl, rfl, rfl⟩
  | cons x xs ih =>
    intro s t h hch
    obtain ⟨y, s1, t1, h1, h2, hm, hlen⟩ := processSample_neg e s t h x ch hch
    obtain ⟨ys, s2, t2, h3, h4, hl⟩ := ih s1 t1 hm (hlen ▸ hch)
    refine ⟨y :: ys, s2, t2, ?_, ?_, ?_⟩
    · unfold processChannel
      rw [h1]
      simp only [h3]
    · rw [List.map_cons]
      unfold processChannel
      rw [h2]
      simp only [h4, List.map_cons]
    · simp [hl]

/-! ### Bounds on the exponential at rational points -/

theorem exp_le_of_pow (x X : ℝ) (p q : Nat) (hq : 0 < q) (hx : (q : ℝ) * x ≤ p)
    (hX : 0 ≤ X) (h : (2.7182818286 : ℝ) ^ p ≤ X ^ q) : Real.exp x ≤ X := by
  by_contra hlt
  push_neg at hlt
  have h1 : X ^ q < Real.exp x ^ q := pow_lt_pow_left₀ hlt hX hq.ne'
  have h2 : Real.exp x ^ q = Real.exp (q * x) := (Real.exp_nat_mul x q).symm
  have h3 : Real.exp (q * x) ≤ Real.exp p := Real.exp_le_exp.mpr hx
  have h4 : Real.exp (p : ℝ) = Real.exp 1 ^ p := by
    rw [← Real.exp_nat_mul, mul_one]
  have h5 : Real.exp 1 ^ p ≤ (2.7182818286 : ℝ) ^ p :=
    pow_le_pow_left₀ (Real.exp_pos 1).le Real.exp_one_lt_d9.le p
  rw [h2] at h1
  linarith

theorem le_exp_of_pow (x X : ℝ) (p q : Nat) (hq : 0 < q) (hx : (p : ℝ) ≤ q * x)
    (h : X ^ q ≤ (2.7182818283 : ℝ) ^ p) : X ≤ Real.exp x := by
  by_contra hlt
  push_neg at hlt
  have h1 : Real.exp x ^ q < X ^ q := pow_lt_pow_left₀ hlt (Real.exp_pos x).le hq.ne'
  have h2 : Real.exp x ^ q = Real.exp (q * x) := (Real.exp_nat_mul x q).symm
  have h3 : Real.exp p ≤ Real.exp (q * x) := Real.exp_le_exp.mpr hx
  have h4 : Real.exp (p : ℝ) = Real.exp 1 ^ p := by
    rw [← Real.exp_nat_mul, mul_one]
  have h5 : (2.7182818283 : ℝ) ^ p ≤ Real.exp 1 ^ p :=
    pow_le_pow_left₀ (by norm_num) Real.exp_one_gt_d9.le p
  rw [h2] at h1
  linarith

/-! ### One Newton-Raphson step in closed form -/

theorem kclDerivative_eq (e : ℝ → ℝ) (dt V : ℝ) :
    kclDerivative e dt V = -(1 / R + C / dt + netCurrentDerivative e V) := by
  unfold kclDerivative
  norm_num
  ring

theorem newton_step_eq (e : ℝ → ℝ) (Vin prev dt V : ℝ)
    (hD : 0 < 1 / R + C / dt + netCurrentDerivative e V) :
    V - newtonDelta e Vin prev dt V =
      (Vin / R + C / dt * prev + V * netCurrentDerivative e V - netCurrent e V) /
        (1 / R + C / dt + netCurrentDerivative e V) := by
  unfold newtonDelta
  rw [kclDerivative_eq]
  unfold kclResidual
  rw [div_neg, sub_neg_eq_add, eq_div_iff hD.ne', add_mul, div_mul_cancel₀ _ hD.ne']
  ring

theorem netCurrentDerivative_nonneg (V : ℝ) : 0 ≤ netCurrentDerivative Real.exp V :=
  add_nonneg (diodeCurrentDerivative_nonneg _) (diodeCurrentDerivative_nonneg _)

theorem netCurrent_inside (V : ℝ) (h1 : -0.45552 ≤ V) (h2 : V ≤ 0.45552) :
    netCurrent Real.exp V =
      Is * (Real.exp (V / (eta * Vt)) - Real.exp (-(V / (eta * Vt)))) := by
  unfold netCurrent
  rw [diodeCurrent_inside _ V h1 h2, diodeCurrent_inside _ (-V) (by linarith) (by linarith),
    neg_div]
  ring

theorem netCurrentDerivative_inside (V : ℝ) (h1 : -0.45552 ≤ V) (h2 : V ≤ 0.45552) :
    netCurrentDerivative Real.exp V =
      (Is / (eta * Vt)) * (Real.exp (V / (eta * Vt)) + Real.exp (-(V / (eta * Vt)))) := by
  unfold netCurrentDerivative
  rw [diodeCurrentDerivative_inside _ V h1 h2,
    diodeCurrentDerivative_inside _ (-V) (by linarith) (by linarith), neg_div]
  ring

theorem netCurrent_above (V : ℝ) (h : 0.45552 < V) :
    netCurrent Real.exp V = Is * (Real.exp (V / (eta * Vt)) + 1) := by
  unfold netCurrent
  rw [diodeCurrent_above _ V h, diodeCurrent_below _ (-V) (by linarith)]
  ring

theorem netCurrentDerivative_above (V : ℝ) (h : 0.45552 < V) :
    netCurrentDerivative Real.exp V = 0 := by
  unfold netCurrentDerivative
  rw [diodeCurrentDerivative_outside _ V (Or.inr h),
    diodeCurrentDerivative_outside _ (-V) (Or.inl (by linarith)), add_zero]

/-- The time step at 44100 Hz: C / dt = 0.000441. -/
theorem C_div_dt44100 : (C : ℝ) / ((1.0 : ℝ) / 44100.0) = 0.000441 := by
  simp only [C]; norm_num

/-- One step of the loop at 44100 Hz from a channel at rest: the next iterate. -/
theorem step44100_eq (Vin V : ℝ) :
    V - newtonDelta Real.exp Vin 0 ((1.0 : ℝ) / 44100.0) V =
      (Vin / 2200 + V * netCurrentDerivative Real.exp V - netCurrent Real.exp V) /
        (1 / 2200 + 0.000441 + netCurrentDerivative Real.exp V) := by
  have hR : (R : ℝ) = 2200 := by simp only [R]; norm_num
  have hD : 0 < 1 / (R : ℝ) + C / ((1.0 : ℝ) / 44100.0) + netCurrentDerivative Real.exp V := by
    rw [C_div_dt44100, hR]
    have := netCurrentDerivative_nonneg V
    linarith
  rw [newton_step_eq _ _ _ _ _ hD, C_div_dt44100, hR, mul_zero, add_zero]

theorem Is_eq : (Is : ℝ) = 2.52e-9 := rfl

theorem etaVt_eq : (eta : ℝ) * Vt = 0.045552 := by
  simp only [eta, Vt]; norm_num

theorem Is_div_etaVt : (Is : ℝ) / (eta * Vt) = 21 / 379600000 := by
  rw [etaVt_eq, Is_eq]; norm_num

/-! ### Input 1.0 at 44100 Hz: the iterates stay in [0.18, 0.5076] -/

theorem step_unit_bounds (V : ℝ) (h0 : 0 ≤ V) (h1 : V ≤ 0.5076) :
    0.18 ≤ V - newtonDelta Real.exp 1 0 ((1.0 : ℝ) / 44100.0) V ∧
      V - newtonDelta Real.exp 1 0 ((1.0 : ℝ) / 44100.0) V ≤ 0.5076 := by
  rw [step44100_eq]
  by_cases hV : V ≤ 0.45552
  · have hx0 : 0 ≤ V / (eta * Vt) := div_nonneg h0 etaVt_pos.le
    have hx1 : V / (eta * Vt) ≤ 10 := by
      rw [etaVt_eq, div_le_iff₀ (by norm_num)]
      linarith
    have hE1 : 1 ≤ Real.exp (V / (eta * Vt)) := Real.one_le_exp hx0
    have hE2 : Real.exp (V / (eta * Vt)) ≤ 22027 :=
      exp_le_of_pow _ _ 10 1 (by norm_num) (by norm_num; exact hx1) (by norm_num)
        (by norm_num)
    have hF1 : 0 < Real.exp (-(V / (eta * Vt))) := Real.exp_pos _
    have hF2 : Real.exp (-(V / (eta * Vt))) ≤ 1 := by
      rw [Real.exp_le_one_iff]
      linarith
    rw [netCurrent_inside V (by linarith) hV, netCurrentDerivative_inside V (by linarith) hV,
      Is_div_etaVt, Is_eq]
    generalize Real.exp (V / (eta * Vt)) = E at hE1 hE2
    generalize Real.exp (-(V / (eta * Vt))) = G at hF1 hF2
    have hS : 0 ≤ (21 / 379600000 : ℝ) * (E + G) := by positivity
    have hP1 : 0 ≤ V * ((21 / 379600000 : ℝ) * (E + G)) := mul_nonneg h0 hS
    have hP2 : V * ((21 / 379600000 : ℝ) * (E + G)) ≤
        0.45552 * ((21 / 379600000 : ℝ) * (E + G)) :=
      mul_le_mul_of_nonneg_right hV hS
    have hD : (0 : ℝ) < 1 / 2200 + 0.000441 + 21 / 379600000 * (E + G) := by linarith
    rw [le_div_iff₀ hD, div_le_iff₀ hD]
    constructor <;> norm_num at * <;> linarith
  · push_neg at hV
    have hx1 : (5 : ℝ) * (V / (eta * Vt)) ≤ 56 := by
      rw [etaVt_eq, ← mul_div_assoc, div_le_iff₀ (by norm_num)]
      linarith
    have hE1 : 0 < Real.exp (V / (eta * Vt)) := Real.exp_pos _
    have hE2 : Real.exp (V / (eta * Vt)) ≤ 80000 :=
      exp_le_of_pow _ _ 56 5 (by norm_num) (by norm_num; exact hx1) (by norm_num)
        (by norm_num)
    rw [netCurrent_above V hV, netCurrentDerivative_above V hV, Is_eq]
    generalize Real.exp (V / (eta * Vt)) = E at hE1 hE2
    have hD : (0 : ℝ) < 1 / 2200 + 0.000441 + 0 := by norm_num
    rw [le_div_iff₀ hD, div_le_iff₀ hD]
    constructor <;> norm_num at * <;> linarith

theorem newtonLoop_unit_bounds (n : Nat) (hn : 0 < n) (V : ℝ) (h0 : 0 ≤ V)
    (h1 : V ≤ 0.5076) :
    0.18 ≤ newtonLoop Real.exp 1 0 ((1.0 : ℝ) / 44100.0) n V ∧
      newtonLoop Real.exp 1 0 ((1.0 : ℝ) / 44100.0) n V ≤ 0.5076 := by
  induction n generalizing V with
  | zero => exact absurd hn (lt_irrefl 0)
  | succ n ih =>
    have hs := step_unit_bounds V h0 h1
    unfold newtonLoop
    simp only
    split_ifs
    · exact hs
    · rcases Nat.eq_zero_or_pos n with hz | hp
      · subst hz
        exact hs
      · exact ih hp _ (by linarith [hs.1]) hs.2

/-! ### The Newton denominator -/

theorem kclDerivative_neg (sampleRate Vout : ℝ) (hsr : 0 < sampleRate) :
    kclDerivative Real.exp ((1.0 : ℝ) / sampleRate) Vout < 0 ∧
      kclDerivative Real.exp ((1.0 : ℝ) / sampleRate) Vout ≠ 0 := by
  have hd := netCurrentDerivative_nonneg Vout
  have hdt : (0 : ℝ) < (1.0 : ℝ) / sampleRate := by
    norm_num
    exact hsr
  have h1 : (0 : ℝ) < 1 / R := by
    have := R_pos
    positivity
  have h2 : (0 : ℝ) < C / ((1.0 : ℝ) / sampleRate) := div_pos C_pos hdt
  have hlt : kclDerivative Real.exp ((1.0 : ℝ) / sampleRate) Vout < 0 := by
    rw [kclDerivative_eq]
    linarith
  exact ⟨hlt, hlt.ne⟩

/-! ### The derivative of the diode current above the band -/

theorem diodeCurrent_hasDerivAt_above (v : ℝ) (hv : 0.45552 < v) :
    HasDerivAt (diodeCurrent Real.exp) ((Is / (eta * Vt)) * Real.exp (v / (eta * Vt))) v := by
  have hfun : HasDerivAt (fun x : ℝ => Is * Real.exp (x / (eta * Vt)))
      ((Is / (eta * Vt)) * Real.exp (v / (eta * Vt))) v := by
    have h1 : HasDerivAt (fun x : ℝ => x / (eta * Vt)) (1 / (eta * Vt)) v :=
      (hasDerivAt_id v).div_const _
    have h2 := (h1.exp).const_mul (Is : ℝ)
    convert h2 using 1
    ring
  refine hfun.congr_of_eventuallyEq ?_
  filter_upwards [lt_mem_nhds hv] with x hx
  exact diodeCurrent_above Real.exp x hx

theorem diodeCurrent_hasDerivAt_below (v : ℝ) (hv : v < -0.45552) :
    HasDerivAt (diodeCurrent Real.exp) (diodeCurrentDerivative Real.exp v) v := by
  rw [diodeCurrentDerivative_outside _ v (Or.inl hv)]
  refine (hasDerivAt_const v (-Is : ℝ)).congr_of_eventuallyEq ?_
  filter_upwards [gt_mem_nhds hv] with x hx
  exact diodeCurrent_below Real.exp x hx

theorem diodeCurrent_hasDerivAt_inside (v : ℝ) (h1 : -0.45552 < v) (h2 : v < 0.45552) :
    HasDerivAt (diodeCurrent Real.exp) (diodeCurrentDerivative Real.exp v) v := by
  rw [diodeCurrentDerivative_inside _ v h1.le h2.le]
  have hfun : HasDerivAt (fun x : ℝ => Is * (Real.exp (x / (eta * Vt)) - 1))
      ((Is / (eta * Vt)) * Real.exp (v / (eta * Vt))) v := by
    have hq : HasDerivAt (fun x : ℝ => x / (eta * Vt)) (1 / (eta * Vt)) v :=
      (hasDerivAt_id v).div_const _
    have hm := ((hq.exp).sub_const 1).const_mul (Is : ℝ)
    convert hm using 1
    ring
  refine hfun.congr_of_eventuallyEq ?_
  filter_upwards [lt_mem_nhds h1, gt_mem_nhds h2] with x hx1 hx2
  exact diodeCurrent_inside Real.exp x hx1.le hx2.le

/-! ### Input 1.1 at 44100 Hz: the iterates alternate between two intervals -/

theorem step_high_bounds (V : ℝ) (h0 : 0.557 ≤ V) (h1 : V ≤ 0.5585) :
    -0.1 ≤ V - newtonDelta Real.exp 1.1 0 ((1.0 : ℝ) / 44100.0) V ∧
      V - newtonDelta Real.exp 1.1 0 ((1.0 : ℝ) / 44100.0) V ≤ -0.01 := by
  rw [step44100_eq]
  have hV : (0.45552 : ℝ) < V := by linarith
  have hx0 : (110 : ℝ) ≤ 9 * (V / (eta * Vt)) := by
    rw [etaVt_eq, ← mul_div_assoc, le_div_iff₀ (by norm_num)]
    linarith
  have hx1 : (10 : ℝ) * (V / (eta * Vt)) ≤ 123 := by
    rw [etaVt_eq, ← mul_div_assoc, div_le_iff₀ (by norm_num)]
    linarith
  have hE1 : 203000 ≤ Real.exp (V / (eta * Vt)) :=
    le_exp_of_pow _ _ 110 9 (by norm_num) (by norm_num; exact hx0) (by norm_num)
  have hE2 : Real.exp (V / (eta * Vt)) ≤ 220000 :=
    exp_le_of_pow _ _ 123 10 (by norm_num) (by norm_num; exact hx1) (by norm_num)
      (by norm_num)
  rw [netCurrent_above V hV, netCurrentDerivative_above V hV, Is_eq]
  generalize Real.exp (V / (eta * Vt)) = E at hE1 hE2
  have hD : (0 : ℝ) < 1 / 2200 + 0.000441 + 0 := by norm_num
  rw [le_div_iff₀ hD, div_le_iff₀ hD]
  constructor <;> norm_num at * <;> linarith

theorem step_low_bounds (V : ℝ) (h0 : -0.1 ≤ V) (h1 : V ≤ 0) :
    0.557 ≤ V - newtonDelta Real.exp 1.1 0 ((1.0 : ℝ) / 44100.0) V ∧
      V - newtonDelta Real.exp 1.1 0 ((1.0 : ℝ) / 44100.0) V ≤ 0.5585 := by
  rw [step44100_eq]
  have hx0 : V / (eta * Vt) ≤ 0 := div_nonpos_of_nonpos_of_nonneg h1 etaVt_pos.le
  have hx1 : -(V / (eta * Vt)) ≤ 3 := by
    rw [etaVt_eq, ← neg_div, div_le_iff₀ (by norm_num)]
    linarith
  have hE1 : 0 < Real.exp (V / (eta * Vt)) := Real.exp_pos _
  have hE2 : Real.exp (V / (eta * Vt)) ≤ 1 := Real.exp_le_one_iff.mpr hx0
  have hF1 : 1 ≤ Real.exp (-(V / (eta * Vt))) := Real.one_le_exp (by linarith)
  have hF2 : Real.exp (-(V / (eta * Vt))) ≤ 20.1 :=
    exp_le_of_pow _ _ 3 1 (by norm_num) (by norm_num; exact hx1) (by norm_num)
      (by norm_num)
  rw [netCurrent_inside V (by linarith) (by linarith),
    netCurrentDerivative_inside V (by linarith) (by linarith), Is_div_etaVt, Is_eq]
  generalize Real.exp (V / (eta * Vt)) = E at hE1 hE2
  generalize Real.exp (-(V / (eta * Vt))) = G at hF1 hF2
  have hS : 0 ≤ (21 / 379600000 : ℝ) * (E + G) := by positivity
  have hP1 : V * ((21 / 379600000 : ℝ) * (E + G)) ≤ 0 :=
    mul_nonpos_of_nonpos_of_nonneg h1 hS
  have hP2 : -0.1 * ((21 / 379600000 : ℝ) * (E + G)) ≤
      V * ((21 / 379600000 : ℝ) * (E + G)) :=
    mul_le_mul_of_nonneg_right h0 hS
  have hD : (0 : ℝ) < 1 / 2200 + 0.000441 + 21 / 379600000 * (E + G) := by linarith
  rw [le_div_iff₀ hD, div_le_iff₀ hD]
  constructor <;> norm_num at * <;> linarith

theorem newtonLoop_succ_of_large (e : ℝ → ℝ) (Vin prev dt V : ℝ) (n : Nat)
    (h : 1e-6 ≤ |newtonDelta e Vin prev dt V|) :
    newtonLoop e Vin prev dt (n + 1) V =
      newtonLoop e Vin prev dt n (V - newtonDelta e Vin prev dt V) := by
  rw [newtonLoop]
  simp only [abs_eq]
  rw [if_neg (not_lt.mpr h)]

theorem newtonLoop_alternates (n : Nat) (V : ℝ) (h0 : -0.1 ≤ V) (h1 : V ≤ 0) :
    -0.1 ≤ newtonLoop Real.exp 1.1 0 ((1.0 : ℝ) / 44100.0) (2 * (n + 1)) V ∧
      newtonLoop Real.exp 1.1 0 ((1.0 : ℝ) / 44100.0) (2 * (n + 1)) V ≤ -0.01 := by
  induction n generalizing V with
  | zero =>
    have ha := step_low_bounds V h0 h1
    have hd1 : 1e-6 ≤ |newtonDelta Real.exp 1.1 0 ((1.0 : ℝ) / 44100.0) V| := by
      rw [le_abs]
      right
      norm_num at ha ⊢
      linarith [ha.1]
    have hb := step_high_bounds _ ha.1 ha.2
    show _ ≤ newtonLoop Real.exp 1.1 0 ((1.0 : ℝ) / 44100.0) (1 + 1) V ∧
      newtonLoop Real.exp 1.1 0 ((1.0 : ℝ) / 44100.0) (1 + 1) V ≤ _
    rw [newtonLoop_succ_of_large _ _ _ _ _ _ hd1]
    rw [newtonLoop]
    split_ifs
    · exact hb
    · exact hb
  | succ n ih =>
    have ha := step_low_bounds V h0 h1
    have hd1 : 1e-6 ≤ |newtonDelta Real.exp 1.1 0 ((1.0 : ℝ) / 44100.0) V| := by
      rw [le_abs]
      right
      norm_num at ha ⊢
      linarith [ha.1]
    have hb := step_high_bounds _ ha.1 ha.2
    have hd2 : 1e-6 ≤ |newtonDelta Real.exp 1.1 0 ((1.0 : ℝ) / 44100.0)
        (V - newtonDelta Real.exp 1.1 0 ((1.0 : ℝ) / 44100.0) V)| := by
      rw [le_abs]
      left
      norm_num at ha hb ⊢
      linarith [ha.1, hb.2]
    have hn : 2 * (n + 1 + 1) = (2 * (n + 1)) + 1 + 1 := by ring
    rw [hn, newtonLoop_succ_of_large _ _ _ _ _ _ hd1,
      newtonLoop_succ_of_large _ _ _ _ _ _ hd2]
    exact ih _ hb.1 (by norm_num at hb ⊢; linarith [hb.2])

/-! ### processSample on one channel at rest, 44100 Hz -/

theorem processSample_rest (t : DiodeClipper ℝ) (hsr : t.sampleRate = 44100.0)
    (hst : t.state = [0]) (Vin : ℝ) :
    processSample Real.exp t Vin 0 =
      some (newtonLoop Real.exp Vin 0 ((1.0 : ℝ) / 44100.0) 8 0,
        { sampleRate := 44100.0,
          state := [newtonLoop Real.exp Vin 0 ((1.0 : ℝ) / 44100.0) 8 0] }) := by
  have hget : t.state[0]? = some 0 := by rw [hst]; rfl
  rw [processSample_of_getElem? Real.exp t Vin 0 0 hget, hsr, hst]
  rfl

theorem prepare_init_state :
    (prepare (init : DiodeClipper ℝ) scenarioSpec).state = [0] := by
  simp [prepare, init, vectorResize, scenarioSpec, zero_lit]

theorem newtonLoop_unit_lit :
    0.18 ≤ newtonLoop Real.exp 1.0 0 ((1.0 : ℝ) / 44100.0) 8 0 ∧
      newtonLoop Real.exp 1.0 0 ((1.0 : ℝ) / 44100.0) 8 0 ≤ 0.5076 := by
  have h1 : newtonLoop Real.exp 1.0 0 ((1.0 : ℝ) / 44100.0) 8 0 =
      newtonLoop Real.exp 1 0 ((1.0 : ℝ) / 44100.0) 8 0 := by
    congr 1
    norm_num
  rw [h1]
  exact newtonLoop_unit_bounds 8 (by norm_num) 0 le_rfl (by norm_num)

end Exact

/-! ## Arithmetic with special values -/

namespace Special

theorem add_def (a b : FVal ℝ) : a + b = FVal.add a b := rfl
theorem sub_def (a b : FVal ℝ) : a - b = FVal.add a (FVal.neg b) := rfl
theorem mul_def (a b : FVal ℝ) : a * b = FVal.mul a b := rfl
theorem div_def (a b : FVal ℝ) : a / b = FVal.div a b := rfl
theorem neg_def (a : FVal ℝ) : -a = FVal.neg a := rfl
theorem lt_def (a b : FVal ℝ) : (a < b) = (FVal.blt a b = true) := rfl
theorem abs_def (a : FVal ℝ) : FloatArith.abs a = FVal.abs a := rfl
theorem lit_def (m : Nat) (s : Bool) (e : Nat) :
    (OfScientific.ofScientific m s e : FVal ℝ) =
      FVal.ofExact (OfScientific.ofScientific m s e : ℝ) := rfl

theorem ofExact_fin (x : ℝ) (h1 : x < 2 ^ 128) (h2 : -(2 ^ 128) < x) :
    FVal.ofExact x = FVal.fin x := by
  unfold FVal.ofExact
  rw [if_neg (not_le.mpr h1), if_neg (not_le.mpr h2)]

theorem R_fin : (R : FVal ℝ) = FVal.fin 2200 := by
  unfold R
  rw [lit_def, ofExact_fin _ (by norm_num) (by norm_num)]
  norm_num
theorem C_fin : (C : FVal ℝ) = FVal.fin 0.00000001 := by
  unfold C
  rw [lit_def, ofExact_fin _ (by norm_num) (by norm_num)]
theorem Is_fin : (Is : FVal ℝ) = FVal.fin 2.52e-9 := by
  unfold Is
  rw [lit_def, ofExact_fin _ (by norm_num) (by norm_num)]
theorem Vt_fin : (Vt : FVal ℝ) = FVal.fin 0.026 := by
  unfold Vt
  rw [lit_def, ofExact_fin _ (by norm_num) (by norm_num)]
theorem eta_fin : (eta : FVal ℝ) = FVal.fin 1.752 := by
  unfold eta
  rw [lit_def, ofExact_fin _ (by norm_num) (by norm_num)]

theorem band : (10.0 : FVal ℝ) * eta * Vt = FVal.fin 0.45552 := by
  rw [eta_fin, Vt_fin]
  simp only [lit_def, mul_def]
  norm_num [FVal.ofExact, FVal.mul]

theorem nband : -(10.0 : FVal ℝ) * eta * Vt = FVal.fin (-0.45552) := by
  rw [eta_fin, Vt_fin]
  simp only [lit_def, mul_def, neg_def]
  norm_num [FVal.ofExact, FVal.mul, FVal.neg]

theorem etaVt : (eta : FVal ℝ) * Vt = FVal.fin 0.045552 := by
  rw [eta_fin, Vt_fin]
  simp only [lit_def, mul_def, neg_def]
  norm_num [FVal.ofExact, FVal.mul, FVal.neg]

theorem diodeCurrent_zero : diodeCurrent (FVal.exp Real.exp) (FVal.fin 0) = FVal.fin 0 := by
  unfold diodeCurrent
  rw [band, nband, etaVt, Is_fin]
  simp only [lit_def, mul_def, neg_def, lt_def, div_def, sub_def]
  norm_num [FVal.ofExact, FVal.mul, FVal.neg, FVal.blt, FVal.div, FVal.exp, FVal.add]


theorem diodeCurrentDerivative_zero :
    diodeCurrentDerivative (FVal.exp Real.exp) (FVal.fin 0) = FVal.fin (21 / 379600000) := by
  unfold diodeCurrentDerivative
  rw [band, nband, etaVt, Is_fin]
  simp only [lit_def, mul_def, neg_def, lt_def, div_def, sub_def]
  norm_num [FVal.ofExact, FVal.mul, FVal.neg, FVal.blt, FVal.div, FVal.exp, FVal.add]

theorem neg_fin_zero : -(FVal.fin 0 : FVal ℝ) = FVal.fin 0 := by
  simp only [neg_def, FVal.neg, neg_zero]

theorem sampleRate_eq : (44100.0 : FVal ℝ) = FVal.fin 44100 := by
  rw [lit_def, ofExact_fin _ (by norm_num) (by norm_num)]
  norm_num

theorem dt_eq : (1.0 : FVal ℝ) / 44100.0 = FVal.fin (1 / 44100) := by
  simp only [lit_def, div_def]
  norm_num [FVal.ofExact, FVal.div]

theorem kclDerivative_outside_fin (V : FVal ℝ)
    (h : diodeCurrentDerivative (FVal.exp Real.exp) V = FVal.fin 0)
    (h2 : diodeCurrentDerivative (FVal.exp Real.exp) (-V) = FVal.fin 0) :
    kclDerivative (FVal.exp Real.exp) (FVal.fin (1 / 44100)) V =
      FVal.fin (-(1 / 2200) - 441 / 1000000) := by
  unfold kclDerivative netCurrentDerivative
  rw [h, h2, R_fin, C_fin]
  simp only [lit_def, mul_def, neg_def, lt_def, div_def, sub_def, add_def]
  norm_num [FVal.ofExact, FVal.mul, FVal.neg, FVal.blt, FVal.div, FVal.exp, FVal.add]

theorem newtonDelta_first :
    newtonDelta (FVal.exp Real.exp) 10.0 (FVal.fin 0) (FVal.fin (1 / 44100)) (FVal.fin 0) =
      FVal.fin (10 / 2200 / (-(1 / 2200) - 441 / 1000000 - 2 * (21 / 379600000))) := by
  unfold newtonDelta kclResidual kclDerivative netCurrent netCurrentDerivative
  rw [neg_fin_zero, diodeCurrent_zero, diodeCurrentDerivative_zero, R_fin, C_fin]
  simp only [lit_def, mul_def, neg_def, lt_def, div_def, sub_def, add_def]
  norm_num [FVal.ofExact, FVal.mul, FVal.neg, FVal.blt, FVal.div, FVal.exp, FVal.add]


theorem exp_overflow (x : ℝ) (h : 100 ≤ x) : (2 : ℝ) ^ 128 ≤ Real.exp x :=
  Exact.le_exp_of_pow x (2 ^ 128) 100 1 (by norm_num) (by norm_num; exact h) (by norm_num)

theorem add_nan (a : FVal ℝ) : FVal.add a FVal.nan = FVal.nan := by
  cases a <;> rfl

theorem div_nan (a : FVal ℝ) : FVal.div a FVal.nan = FVal.nan := by
  cases a <;> rfl

theorem nan_add (a : FVal ℝ) : FVal.add FVal.nan a = FVal.nan := by
  cases a <;> rfl

theorem not_small_fin (x : ℝ) (h : 1e-6 ≤ |x|) :
    ¬ (FloatArith.abs (FVal.fin x) < (1e-6 : FVal ℝ)) := by
  rw [lit_def, ofExact_fin _ (by norm_num) (by norm_num)]
  simp only [abs_def, FVal.abs, lt_def, FVal.blt, decide_eq_true_eq, not_lt]
  exact h

theorem not_small_inf :
    ¬ (FloatArith.abs (FVal.pinf : FVal ℝ) < (1e-6 : FVal ℝ)) ∧
      ¬ (FloatArith.abs (FVal.ninf : FVal ℝ) < (1e-6 : FVal ℝ)) ∧
      ¬ (FloatArith.abs (FVal.nan : FVal ℝ) < (1e-6 : FVal ℝ)) := by
  rw [lit_def, ofExact_fin _ (by norm_num) (by norm_num)]
  simp [abs_def, FVal.abs, lt_def, FVal.blt]

theorem diodeCurrent_large (v : ℝ) (h1 : 4.6 ≤ v) (h2 : v ≤ 10) :
    diodeCurrent (FVal.exp Real.exp) (FVal.fin v) = FVal.pinf := by
  have hx : FVal.div (FVal.fin v) (FVal.fin 0.045552) = FVal.fin (v / 0.045552) := by
    simp only [FVal.div]
    rw [if_neg (by norm_num)]
    apply ofExact_fin
    · rw [div_lt_iff₀ (by norm_num)]
      norm_num
      linarith
    · rw [lt_div_iff₀ (by norm_num)]
      norm_num
      linarith
  have he : FVal.exp Real.exp (FVal.fin (v / 0.045552)) = FVal.pinf := by
    simp only [FVal.exp, FVal.ofExact]
    rw [if_pos]
    apply exp_overflow
    rw [le_div_iff₀ (by norm_num)]
    linarith
  unfold diodeCurrent
  rw [band, nband, etaVt, Is_fin]
  simp only [lt_def, FVal.blt, decide_eq_true_eq, div_def, mul_def]
  rw [if_neg (by linarith), if_pos (by linarith), hx, he]
  norm_num [FVal.mul, FVal.scaleInf]

theorem diodeCurrent_neg_large (v : ℝ) (h1 : 4.6 ≤ v) :
    diodeCurrent (FVal.exp Real.exp) (-(FVal.fin v)) = FVal.fin (-2.52e-9) := by
  unfold diodeCurrent
  rw [band, nband, etaVt, Is_fin]
  simp only [lt_def, neg_def, FVal.neg, FVal.blt, decide_eq_true_eq]
  rw [if_pos (by linarith)]

theorem diodeCurrentDerivative_large (v : ℝ) (h1 : 4.6 ≤ v) :
    diodeCurrentDerivative (FVal.exp Real.exp) (FVal.fin v) = FVal.fin 0 ∧
      diodeCurrentDerivative (FVal.exp Real.exp) (-(FVal.fin v)) = FVal.fin 0 := by
  unfold diodeCurrentDerivative
  rw [band, nband]
  simp only [lt_def, neg_def, FVal.neg, FVal.blt, decide_eq_true_eq, lit_def]
  rw [if_pos (Or.inr (by linarith)), if_pos (Or.inl (by linarith))]
  norm_num [FVal.ofExact]

theorem newtonDelta_second :
    newtonDelta (FVal.exp Real.exp) 10.0 (FVal.fin 0) (FVal.fin (1 / 44100))
      (FVal.fin (23725000 / 4674877)) = FVal.pinf := by
  have hd := diodeCurrentDerivative_large (23725000 / 4674877) (by norm_num)
  unfold newtonDelta
  rw [kclDerivative_outside_fin _ hd.1 hd.2]
  unfold kclResidual netCurrent
  rw [diodeCurrent_large _ (by norm_num) (by norm_num), diodeCurrent_neg_large _ (by norm_num),
    R_fin, C_fin]
  simp only [lit_def, mul_def, neg_def, lt_def, div_def, sub_def, add_def]
  norm_num [FVal.ofExact, FVal.mul, FVal.neg, FVal.blt, FVal.div, FVal.exp, FVal.add]

theorem diodeCurrent_ninf :
    diodeCurrent (FVal.exp Real.exp) FVal.ninf = FVal.fin (-2.52e-9) ∧
      diodeCurrent (FVal.exp Real.exp) (-FVal.ninf) = FVal.pinf := by
  unfold diodeCurrent
  rw [band, nband, etaVt, Is_fin]
  simp only [lit_def, mul_def, neg_def, lt_def, div_def, sub_def, add_def]
  norm_num [FVal.ofExact, FVal.mul, FVal.neg, FVal.blt, FVal.div, FVal.exp, FVal.add,
    FVal.scaleInf]

theorem diodeCurrentDerivative_ninf :
    diodeCurrentDerivative (FVal.exp Real.exp) FVal.ninf = FVal.fin 0 ∧
      diodeCurrentDerivative (FVal.exp Real.exp) (-FVal.ninf) = FVal.fin 0 := by
  unfold diodeCurrentDerivative
  rw [band, nband]
  simp only [lit_def, mul_def, neg_def, lt_def, div_def, sub_def, add_def]
  norm_num [FVal.ofExact, FVal.mul, FVal.neg, FVal.blt, FVal.div, FVal.exp, FVal.add]

theorem newtonDelta_third :
    newtonDelta (FVal.exp Real.exp) 10.0 (FVal.fin 0) (FVal.fin (1 / 44100)) FVal.ninf =
      FVal.ninf := by
  unfold newtonDelta
  rw [kclDerivative_outside_fin _ diodeCurrentDerivative_ninf.1 diodeCurrentDerivative_ninf.2]
  unfold kclResidual netCurrent
  rw [diodeCurrent_ninf.1, diodeCurrent_ninf.2, R_fin, C_fin]
  simp only [lit_def, mul_def, neg_def, lt_def, div_def, sub_def, add_def]
  norm_num [FVal.ofExact, FVal.mul, FVal.neg, FVal.blt, FVal.div, FVal.exp, FVal.add,
    FVal.scaleInf]

theorem newtonDelta_nan (Vin prev dt : FVal ℝ) :
    newtonDelta (FVal.exp Real.exp) Vin prev dt FVal.nan = FVal.nan := by
  have hd : diodeCurrentDerivative (FVal.exp Real.exp) (FVal.nan : FVal ℝ) = FVal.nan := by
    unfold diodeCurrentDerivative
    rw [band, nband, etaVt, Is_fin]
    simp only [lit_def, mul_def, neg_def, lt_def, div_def, sub_def, add_def]
    norm_num [FVal.ofExact, FVal.mul, FVal.neg, FVal.blt, FVal.div, FVal.exp, FVal.add]
  unfold newtonDelta kclDerivative netCurrentDerivative
  rw [hd]
  simp only [div_def, sub_def, add_def, nan_add, FVal.neg, add_nan, div_nan]

theorem newtonLoop_nan (Vin prev dt : FVal ℝ) (n : Nat) :
    newtonLoop (FVal.exp Real.exp) Vin prev dt n FVal.nan = FVal.nan := by
  induction n with
  | zero => rfl
  | succ n ih =>
    rw [newtonLoop, newtonDelta_nan, if_neg not_small_inf.2.2]
    exact ih

theorem newtonLoop_square :
    newtonLoop (FVal.exp Real.exp) 10.0 (FVal.fin 0) (FVal.fin (1 / 44100)) 8 (FVal.fin 0) =
      FVal.nan := by
  have h1 : FVal.fin 0 -
      FVal.fin (10 / 2200 / (-(1 / 2200) - 441 / 1000000 - 2 * (21 / 379600000))) =
      (FVal.fin (23725000 / 4674877) : FVal ℝ) := by
    simp only [sub_def]
    norm_num [FVal.ofExact, FVal.neg, FVal.add]
  have h2 : (FVal.fin (23725000 / 4674877) : FVal ℝ) - FVal.pinf = FVal.ninf := rfl
  have h3 : (FVal.ninf : FVal ℝ) - FVal.ninf = FVal.nan := rfl
  rw [newtonLoop, newtonDelta_first, h1, if_neg (not_small_fin _ (by rw [le_abs]; right; norm_num)),
    newtonLoop, newtonDelta_second, h2, if_neg not_small_inf.1,
    newtonLoop, newtonDelta_third, h3, if_neg not_small_inf.2.1, newtonLoop_nan]

theorem zero_eq : (0.0 : FVal ℝ) = FVal.fin 0 := by
  rw [lit_def, ofExact_fin _ (by norm_num) (by norm_num)]
  norm_num

theorem reset_prepare_init :
    reset (prepare (init : DiodeClipper (FVal ℝ)) scenarioSpec) =
      { sampleRate := 44100.0, state := [FVal.fin 0] } := by
  simp [reset, prepare, init, scenarioSpec, vectorResize, zero_eq]

theorem processSample_overflow :
    processSample (FVal.exp Real.exp)
        ({ sampleRate := 44100.0, state := [FVal.fin 0] } : DiodeClipper (FVal ℝ)) 10.0 0 =
      some (FVal.nan, { sampleRate := 44100.0, state := [FVal.nan] }) := by
  rw [processSample_of_getElem? (FVal.exp Real.exp)
    ({ sampleRate := 44100.0, state := [FVal.fin 0] } : DiodeClipper (FVal ℝ)) 10.0
    (FVal.fin 0) 0 rfl]
  simp only [dt_eq, newtonLoop_square]
  rfl

theorem processChannel_nan (xs : List (FVal ℝ)) :
    processChannel (FVal.exp Real.exp)
        ({ sampleRate := 44100.0, state := [FVal.nan] } : DiodeClipper (FVal ℝ)) 0 xs =
      some (List.replicate xs.length FVal.nan,
        { sampleRate := 44100.0, state := [FVal.nan] }) := by
  induction xs with
  | nil => rfl
  | cons x xs ih =>
    have h : processSample (FVal.exp Real.exp)
        ({ sampleRate := 44100.0, state := [FVal.nan] } : DiodeClipper (FVal ℝ)) x 0 =
        some (FVal.nan, { sampleRate := 44100.0, state := [FVal.nan] }) := by
      rw [processSample_of_getElem? (FVal.exp Real.exp)
        ({ sampleRate := 44100.0, state := [FVal.nan] } : DiodeClipper (FVal ℝ)) x
        FVal.nan 0 rfl]
      simp only [newtonLoop_nan]
      rfl
    rw [processChannel, h]
    simp only [ih, List.length_cons, List.replicate_succ]

/-! ### The negated input -10.0, and the iterates for the input 10.0 -/

theorem neg_fin (x : ℝ) : -(FVal.fin x : FVal ℝ) = FVal.fin (-x) := rfl

theorem neg_ten : -(10.0 : FVal ℝ) = FVal.fin (-10) := by
  rw [lit_def, ofExact_fin _ (by norm_num) (by norm_num), neg_fin]
  norm_num

theorem newtonDelta_first_neg :
    newtonDelta (FVal.exp Real.exp) (-(10.0)) (FVal.fin 0) (FVal.fin (1 / 44100))
        (FVal.fin 0) =
      FVal.fin (-10 / 2200 / (-(1 / 2200) - 441 / 1000000 - 2 * (21 / 379600000))) := by
  unfold newtonDelta kclResidual kclDerivative netCurrent netCurrentDerivative
  rw [neg_fin_zero, diodeCurrent_zero, diodeCurrentDerivative_zero, R_fin, C_fin, neg_ten]
  simp only [lit_def, mul_def, neg_def, lt_def, div_def, sub_def, add_def]
  norm_num [FVal.ofExact, FVal.mul, FVal.neg, FVal.blt, FVal.div, FVal.exp, FVal.add]

theorem newtonDelta_second_neg :
    newtonDelta (FVal.exp Real.exp) (-(10.0)) (FVal.fin 0) (FVal.fin (1 / 44100))
      (FVal.fin (-(23725000 / 4674877))) = FVal.ninf := by
  have hd := diodeCurrentDerivative_large (23725000 / 4674877) (by norm_num)
  have h1 : diodeCurrent (FVal.exp Real.exp) (FVal.fin (-(23725000 / 4674877))) =
      FVal.fin (-2.52e-9) := diodeCurrent_neg_large _ (by norm_num)
  have h2 : diodeCurrent (FVal.exp Real.exp) (-(FVal.fin (-(23725000 / 4674877)))) =
      FVal.pinf := by
    rw [neg_fin, neg_neg]
    exact diodeCurrent_large _ (by norm_num) (by norm_num)
  have h3 : diodeCurrentDerivative (FVal.exp Real.exp)
      (-(FVal.fin (-(23725000 / 4674877)))) = FVal.fin 0 := by
    rw [neg_fin, neg_neg]
    exact hd.1
  have h4 : diodeCurrentDerivative (FVal.exp Real.exp)
      (FVal.fin (-(23725000 / 4674877))) = FVal.fin 0 := hd.2
  unfold newtonDelta
  rw [kclDerivative_outside_fin _ h4 h3]
  unfold kclResidual netCurrent
  rw [h1, h2, R_fin, C_fin, neg_ten]
  simp only [lit_def, mul_def, neg_def, lt_def, div_def, sub_def, add_def]
  norm_num [FVal.ofExact, FVal.mul, FVal.neg, FVal.blt, FVal.div, FVal.exp, FVal.add]

theorem diodeCurrent_pinf :
    diodeCurrent (FVal.exp Real.exp) FVal.pinf = FVal.pinf ∧
      diodeCurrent (FVal.exp Real.exp) (-FVal.pinf) = FVal.fin (-2.52e-9) := by
  have h : -(FVal.pinf : FVal ℝ) = FVal.ninf := rfl
  rw [h]
  have hn : -(FVal.ninf : FVal ℝ) = FVal.pinf := rfl
  exact ⟨hn ▸ diodeCurrent_ninf.2, diodeCurrent_ninf.1⟩

theorem diodeCurrentDerivative_pinf :
    diodeCurrentDerivative (FVal.exp Real.exp) FVal.pinf = FVal.fin 0 ∧
      diodeCurrentDerivative (FVal.exp Real.exp) (-FVal.pinf) = FVal.fin 0 := by
  have h : -(FVal.pinf : FVal ℝ) = FVal.ninf := rfl
  rw [h]
  have hn : -(FVal.ninf : FVal ℝ) = FVal.pinf := rfl
  exact ⟨hn ▸ diodeCurrentDerivative_ninf.2, diodeCurrentDerivative_ninf.1⟩

theorem newtonDelta_third_neg :
    newtonDelta (FVal.exp Real.exp) (-(10.0)) (FVal.fin 0) (FVal.fin (1 / 44100))
      FVal.pinf = FVal.pinf := by
  unfold newtonDelta
  rw [kclDerivative_outside_fin _ diodeCurrentDerivative_pinf.1 diodeCurrentDerivative_pinf.2]
  unfold kclResidual netCurrent
  rw [diodeCurrent_pinf.1, diodeCurrent_pinf.2, R_fin, C_fin, neg_ten]
  simp only [lit_def, mul_def, neg_def, lt_def, div_def, sub_def, add_def]
  norm_num [FVal.ofExact, FVal.mul, FVal.neg, FVal.blt, FVal.div, FVal.exp, FVal.add,
    FVal.scaleInf]

theorem newtonLoop_square_neg :
    newtonLoop (FVal.exp Real.exp) (-(10.0)) (FVal.fin 0) (FVal.fin (1 / 44100)) 8
      (FVal.fin 0) = FVal.nan := by
  have h1 : FVal.fin 0 -
      FVal.fin (-10 / 2200 / (-(1 / 2200) - 441 / 1000000 - 2 * (21 / 379600000))) =
      (FVal.fin (-(23725000 / 4674877)) : FVal ℝ) := by
    simp only [sub_def]
    norm_num [FVal.ofExact, FVal.neg, FVal.add]
  have h2 : (FVal.fin (-(23725000 / 4674877)) : FVal ℝ) - FVal.ninf = FVal.pinf := rfl
  have h3 : (FVal.pinf : FVal ℝ) - FVal.pinf = FVal.nan := rfl
  rw [newtonLoop, newtonDelta_first_neg, h1,
    if_neg (not_small_fin _ (by rw [le_abs]; left; norm_num)),
    newtonLoop, newtonDelta_second_neg, h2, if_neg not_small_inf.2.1,
    newtonLoop, newtonDelta_third_neg, h3, if_neg not_small_inf.1, newtonLoop_nan]

theorem processSample_overflow_neg :
    processSample (FVal.exp Real.exp)
        ({ sampleRate := 44100.0, state := [FVal.fin 0] } : DiodeClipper (FVal ℝ))
        (-(10.0)) 0 =
      some (FVal.nan, { sampleRate := 44100.0, state := [FVal.nan] }) := by
  rw [processSample_of_getElem? (FVal.exp Real.exp)
    ({ sampleRate := 44100.0, state := [FVal.fin 0] } : DiodeClipper (FVal ℝ)) (-(10.0))
    (FVal.fin 0) 0 rfl]
  simp only [dt_eq, newtonLoop_square_neg]
  rfl

theorem newtonIterates_nan (Vin prev dt : FVal ℝ) (n : Nat) :
    newtonIterates (FVal.exp Real.exp) Vin prev dt n FVal.nan =
      List.replicate n FVal.nan := by
  induction n with
  | zero => rfl
  | succ n ih =>
    rw [newtonIterates, newtonDelta_nan, if_neg not_small_inf.2.2, List.replicate_succ]
    have h : (FVal.nan : FVal ℝ) - FVal.nan = FVal.nan := rfl
    rw [h, ih]

theorem newtonIterates_square :
    newtonIterates (FVal.exp Real.exp) 10.0 (FVal.fin 0) (FVal.fin (1 / 44100)) 8
        (FVal.fin 0) =
      [FVal.fin 0, FVal.fin (23725000 / 4674877), FVal.ninf, FVal.nan, FVal.nan, FVal.nan,
        FVal.nan, FVal.nan] := by
  have h1 : FVal.fin 0 -
      FVal.fin (10 / 2200 / (-(1 / 2200) - 441 / 1000000 - 2 * (21 / 379600000))) =
      (FVal.fin (23725000 / 4674877) : FVal ℝ) := by
    simp only [sub_def]
    norm_num [FVal.ofExact, FVal.neg, FVal.add]
  have h2 : (FVal.fin (23725000 / 4674877) : FVal ℝ) - FVal.pinf = FVal.ninf := rfl
  have h3 : (FVal.ninf : FVal ℝ) - FVal.ninf = FVal.nan := rfl
  rw [newtonIterates, newtonDelta_first, h1,
    if_neg (not_small_fin _ (by rw [le_abs]; right; norm_num)),
    newtonIterates, newtonDelta_second, h2, if_neg not_small_inf.1,
    newtonIterates, newtonDelta_third, h3, if_neg not_small_inf.2.1, newtonIterates_nan]
  rfl

theorem ble_nan (b : FVal ℝ) : FVal.ble FVal.nan b = false := by
  cases b <;> rfl

theorem nan_ble (a : FVal ℝ) : FVal.ble a FVal.nan = false := by
  cases a <;> rfl

theorem netCurrentDerivative_nan :
    netCurrentDerivative (FVal.exp Real.exp) (FVal.nan : FVal ℝ) = FVal.nan := by
  have hd : diodeCurrentDerivative (FVal.exp Real.exp) (FVal.nan : FVal ℝ) = FVal.nan := by
    unfold diodeCurrentDerivative
    rw [band, nband, etaVt, Is_fin]
    simp only [lit_def, mul_def, neg_def, lt_def, div_def, sub_def, add_def]
    norm_num [FVal.ofExact, FVal.mul, FVal.neg, FVal.blt, FVal.div, FVal.exp, FVal.add]
  unfold netCurrentDerivative
  rw [hd]
  simp only [add_def, nan_add]

theorem kclDerivative_nan (dt : FVal ℝ) :
    kclDerivative (FVal.exp Real.exp) dt FVal.nan = FVal.nan := by
  unfold kclDerivative
  rw [netCurrentDerivative_nan]
  simp only [sub_def, FVal.neg, add_nan]

end Special

/-! ## The claims -/

/-- C1 (as stated, refuted): a solver is prepared for one channel at 44100 Hz and processes
the sample 1.0, which leaves a non-zero voltage v in channel 0; a second call of prepare
with the same configuration keeps v, so the state is not all zero. -/
theorem prepare_keeps_voltage :
    ∃ v s1, processSample Real.exp (prepare (init : DiodeClipper ℝ) scenarioSpec) 1.0 0 =
        some (v, s1) ∧
      v ≠ 0 ∧
      (prepare s1 scenarioSpec).state = [v] ∧
      ¬ (∀ x ∈ (prepare s1 scenarioSpec).state, x = 0) := by
  have hb := Exact.newtonLoop_unit_lit
  have hv : newtonLoop Real.exp 1.0 0 ((1.0 : ℝ) / 44100.0) 8 0 ≠ 0 := by
    intro h
    rw [h] at hb
    norm_num at hb
  refine ⟨_, _, Exact.processSample_rest _ rfl Exact.prepare_init_state 1.0, hv, ?_, ?_⟩
  · simp [prepare, vectorResize, scenarioSpec]
  · simp only [prepare, vectorResize, scenarioSpec]
    simpa using hv

/-- C1 (amended): after prepare the state vector has exactly numChannels entries and the
sample rate is stored; an entry below the old length keeps its old value, and every entry
at or beyond the old length is 0.0.  From an empty state every entry is 0.0. -/
theorem prepare_resizes {F : Type} [FloatArith F] (s : DiodeClipper F) (spec : ProcessSpec F) :
    (prepare s spec).sampleRate = spec.sampleRate ∧
      (prepare s spec).state.length = spec.numChannels ∧
      (∀ i, i < spec.numChannels →
        (prepare s spec).state[i]? = some (if h : i < s.state.length then s.state[i] else 0.0)) ∧
      (s.state = [] → (prepare s spec).state = List.replicate spec.numChannels 0.0) := by
  refine ⟨rfl, vectorResize_length _ _ _, fun i hi => vectorResize_getElem? _ _ _ _ hi, ?_⟩
  intro h
  simp [prepare, vectorResize, h]

/-- C2: for a valid channel c, processSample returns a value Vout, stores it in state[c],
and leaves every other channel, the number of channels and the sample rate unchanged. -/
theorem processSample_frame {F : Type} [FloatArith F] (exp : F → F) (s : DiodeClipper F)
    (Vin : F) (c : Nat) (hc : c < s.state.length) :
    ∃ Vout s1, processSample exp s Vin c = some (Vout, s1) ∧
      s1.state[c]? = some Vout ∧
      (∀ j, j ≠ c → s1.state[j]? = s.state[j]?) ∧
      s1.state.length = s.state.length ∧
      s1.sampleRate = s.sampleRate := by
  refine ⟨_, _, processSample_of_getElem? exp s Vin s.state[c] c
    (List.getElem?_eq_getElem hc), ?_, ?_, ?_, rfl⟩
  · simp only [List.getElem?_set_self, hc]
  · intro j hj
    simp only
    rw [List.getElem?_set_ne (Ne.symm hj)]
  · simp only [List.length_set]

/-- Witness of C2: channel 1 of a three-channel solver over the rationals. -/
theorem processSample_frame_witness :
    1 < ({ sampleRate := 44100, state := [0, 1 / 4, 0] } : DiodeClipper ℚ).state.length ∧
    ∃ Vout s1, processSample (fun x => 1 + x)
        ({ sampleRate := 44100, state := [0, 1 / 4, 0] } : DiodeClipper ℚ) (1 / 2) 1 =
          some (Vout, s1) ∧
      s1.state[1]? = some Vout ∧
      (∀ j, j ≠ 1 → s1.state[j]? =
        ({ sampleRate := 44100, state := [0, 1 / 4, 0] } : DiodeClipper ℚ).state[j]?) ∧
      s1.state.length =
        ({ sampleRate := 44100, state := [0, 1 / 4, 0] } : DiodeClipper ℚ).state.length ∧
      s1.sampleRate = ({ sampleRate := 44100, state := [0, 1 / 4, 0] } : DiodeClipper ℚ).sampleRate :=
  ⟨by decide, processSample_frame _ _ _ 1 (by decide)⟩

/-- C3: from a zero-initialised state (reset after prepare, any positive sample rate, any
valid channel), n calls of processSample with input 0.0 return 0.0 each time and leave
the solver as it was, the channel voltage at 0.0. -/
theorem zero_input_stays_at_rest (s : DiodeClipper ℝ) (spec : ProcessSpec ℝ)
    (hsr : 0 < spec.sampleRate) (ch : Nat) (hch : ch < spec.numChannels) (n : Nat) :
    (reset (prepare s spec)).state = List.replicate spec.numChannels 0 ∧
    kclDerivative Real.exp ((1.0 : ℝ) / spec.sampleRate) 0 < 0 ∧
    ∃ s1, processChannel Real.exp (reset (prepare s spec)) ch (List.replicate n 0) =
        some (List.replicate n 0, s1) ∧
      s1.state[ch]? = some 0 ∧ s1 = reset (prepare s spec) := by
  rw [Exact.reset_prepare_state]
  refine ⟨rfl, (Exact.kclDerivative_neg spec.sampleRate 0 hsr).1, _,
    Exact.processChannel_zero _ _ ch hch n, ?_, rfl⟩
  simp [List.getElem?_replicate, hch]

/-- Witness of C3: three zero samples on the channel of the concrete scenario. -/
theorem zero_input_stays_at_rest_witness :
    (0 : ℝ) < (scenarioSpec : ProcessSpec ℝ).sampleRate ∧
    0 < (scenarioSpec : ProcessSpec ℝ).numChannels ∧
    (reset (prepare (init : DiodeClipper ℝ) scenarioSpec)).state =
      List.replicate (scenarioSpec : ProcessSpec ℝ).numChannels 0 ∧
    kclDerivative Real.exp ((1.0 : ℝ) / (scenarioSpec : ProcessSpec ℝ).sampleRate) 0 < 0 ∧
    ∃ s1, processChannel Real.exp (reset (prepare (init : DiodeClipper ℝ) scenarioSpec)) 0
        (List.replicate 3 0) = some (List.replicate 3 0, s1) ∧
      s1.state[0]? = some 0 ∧ s1 = reset (prepare (init : DiodeClipper ℝ) scenarioSpec) :=
  ⟨by simp only [scenarioSpec]; norm_num, by simp only [scenarioSpec]; norm_num,
    zero_input_stays_at_rest init scenarioSpec (by simp only [scenarioSpec]; norm_num) 0
      (by simp only [scenarioSpec]; norm_num) 3⟩

/-- C4 (the code at the failing input): at 44100 Hz from a zero-initialised state, the
one-sample sequence 10.0 returns y = NaN and its negation -10.0 returns z = NaN (std::exp
overflows in the second Newton iteration of either run), so z + y is NaN and the test
|z + y| <= 1e-4 is false. -/
theorem odd_symmetry_fails :
    ∃ y z s1 s2,
      processChannel (FVal.exp Real.exp)
        (reset (prepare (init : DiodeClipper (FVal ℝ)) scenarioSpec)) 0 [10.0] =
        some ([y], s1) ∧
      processChannel (FVal.exp Real.exp)
        (reset (prepare (init : DiodeClipper (FVal ℝ)) scenarioSpec)) 0
        ([10.0].map (fun x => -x)) = some ([z], s2) ∧
      (10.0 : FVal ℝ) = FVal.fin 10 ∧ -(10.0 : FVal ℝ) = FVal.fin (-10) ∧
      y = FVal.nan ∧ z = FVal.nan ∧ z + y = FVal.nan ∧
      FVal.ble (FloatArith.abs (z + y)) 1e-4 = false := by
  refine ⟨FVal.nan, FVal.nan,
    ({ sampleRate := 44100.0, state := [FVal.nan] } : DiodeClipper (FVal ℝ)),
    ({ sampleRate := 44100.0, state := [FVal.nan] } : DiodeClipper (FVal ℝ)),
    ?_, ?_, ?_, Special.neg_ten, rfl, rfl, rfl, Special.ble_nan _⟩
  · rw [Special.reset_prepare_init, processChannel, Special.processSample_overflow]
    rfl
  · rw [Special.reset_prepare_init, List.map_cons, List.map_nil, processChannel,
      Special.processSample_overflow_neg]
    rfl
  · rw [Special.lit_def, Special.ofExact_fin _ (by norm_num) (by norm_num)]
    norm_num

/-- C5 (the code at the failing inputs): at 44100 Hz from a channel at rest, the input 1.0
returns at least 0.18 and the larger input 1.1 returns at most -0.01: the returned value
drops by more than 0.19 when Vin grows from 1.0 to 1.1. -/
theorem monotonic_compression_fails :
    ∃ y1 y2 s1 s2,
      processSample Real.exp (reset (prepare (init : DiodeClipper ℝ) scenarioSpec)) 1.0 0 =
        some (y1, s1) ∧
      processSample Real.exp (reset (prepare (init : DiodeClipper ℝ) scenarioSpec)) 1.1 0 =
        some (y2, s2) ∧
      (-5 : ℝ) ≤ 1.0 ∧ (1.0 : ℝ) ≤ 1.1 ∧ (1.1 : ℝ) ≤ 5 ∧
      0.18 ≤ y1 ∧ y2 ≤ -0.01 ∧ y2 + 0.19 ≤ y1 := by
  have hst : (reset (prepare (init : DiodeClipper ℝ) scenarioSpec)).state = [0] := by
    rw [Exact.reset_prepare_state]
    rfl
  have h1 := Exact.newtonLoop_unit_lit
  have h2 := Exact.newtonLoop_alternates 3 0 (by norm_num) le_rfl
  refine ⟨_, _, _, _, Exact.processSample_rest _ rfl hst 1.0,
    Exact.processSample_rest _ rfl hst 1.1, by norm_num, by norm_num, by norm_num,
    h1.1, h2.2, ?_⟩
  have h3 := h1.1
  have h4 := h2.2
  norm_num at h3 h4 ⊢
  linarith

/-- C6 (the code at the failing input): at 44100 Hz from a channel at rest (prev = 0,
dt = 1 / 44100) the input 10.0 makes the loop of processSample run its 8 iterations at
the iterates 0, 5.0749..., -inf, NaN, NaN, NaN, NaN, NaN; at the iterate NaN (iterations 4
to 8) dId is NaN and df is NaN, so neither dId >= 0 nor df < 0 holds. -/
theorem kclDerivative_nan_iterate :
    reset (prepare (init : DiodeClipper (FVal ℝ)) scenarioSpec) =
      { sampleRate := 44100.0, state := [FVal.fin 0] } ∧
    newtonIterates (FVal.exp Real.exp) 10.0 (FVal.fin 0) ((1.0 : FVal ℝ) / 44100.0) 8
        (FVal.fin 0) =
      [FVal.fin 0, FVal.fin (23725000 / 4674877), FVal.ninf, FVal.nan, FVal.nan, FVal.nan,
        FVal.nan, FVal.nan] ∧
    netCurrentDerivative (FVal.exp Real.exp) (FVal.nan : FVal ℝ) = FVal.nan ∧
    kclDerivative (FVal.exp Real.exp) ((1.0 : FVal ℝ) / 44100.0) FVal.nan = FVal.nan ∧
    FVal.ble 0.0 (netCurrentDerivative (FVal.exp Real.exp) (FVal.nan : FVal ℝ)) = false ∧
    ¬ (kclDerivative (FVal.exp Real.exp) ((1.0 : FVal ℝ) / 44100.0) FVal.nan < 0.0) := by
  refine ⟨Special.reset_prepare_init, ?_, Special.netCurrentDerivative_nan,
    Special.kclDerivative_nan _, ?_, ?_⟩
  · rw [Special.dt_eq]
    exact Special.newtonIterates_square
  · rw [Special.netCurrentDerivative_nan]
    exact Special.nan_ble _
  · rw [Special.kclDerivative_nan, Special.lt_def]
    simp [FVal.blt]

/-- C7: after prepare(44100, 1) and reset, processSample(1.0, 0) returns a value strictly
between 0 and 1.0 (in fact in [0.18, 0.5076]) and state[0] holds that value. -/
theorem concrete_scenario (s : DiodeClipper ℝ) :
    ∃ Vout s1,
      processSample Real.exp (reset (prepare s scenarioSpec)) 1.0 0 = some (Vout, s1) ∧
      0 < Vout ∧ Vout < 1.0 ∧ s1.state = [Vout] ∧ s1.state[0]? = some Vout := by
  have hst : (reset (prepare s scenarioSpec)).state = [0] := by
    rw [Exact.reset_prepare_state]
    rfl
  have hsr : (reset (prepare s scenarioSpec)).sampleRate = 44100.0 := rfl
  have h1 := Exact.newtonLoop_unit_lit
  refine ⟨_, _, Exact.processSample_rest _ hsr hst 1.0, ?_, ?_, rfl, rfl⟩
  · linarith [h1.1]
  · have := h1.2
    norm_num at this ⊢
    linarith

/-- C8 (as stated, refuted): prepare with the sample rate -1 and no channel does not fail;
it stores the sample rate -1 and an empty state. -/
theorem configure_accepts_invalid :
    (-1 : ℝ) ≤ 0 ∧ (0 : Nat) < 1 ∧
      configure (init : DiodeClipper ℝ)
          { sampleRate := -1, maximumBlockSize := 512, numChannels := 0 } =
        Except.ok { sampleRate := -1, state := [] } ∧
      configure (init : DiodeClipper ℝ)
          { sampleRate := -1, maximumBlockSize := 512, numChannels := 0 } ≠
        Except.error SolverError.InvalidConfiguration := by
  refine ⟨by norm_num, by norm_num, rfl, ?_⟩
  intro h
  cases h

/-- C8 (amended): prepare validates nothing; for every sample rate and channel count, also
a sample rate that is not positive and a channel count of zero, the call succeeds, stores
the sample rate and resizes the state to numChannels entries. -/
theorem configure_never_fails {F : Type} [FloatArith F] (s : DiodeClipper F)
    (spec : ProcessSpec F) :
    ∃ s1, configure s spec = Except.ok s1 ∧ s1.sampleRate = spec.sampleRate ∧
      s1.state.length = spec.numChannels :=
  ⟨prepare s spec, rfl, rfl, vectorResize_length _ _ _⟩

/-- C9 (the code at the failing input): at 44100 Hz from a channel at rest, the finite input
10.0 makes std::exp overflow in the second Newton iteration; processSample returns NaN and
stores NaN, and every later sample of the channel, whatever its input, returns NaN. -/
theorem boundedness_fails (rest : List (FVal ℝ)) :
    (scenarioSpec : ProcessSpec (FVal ℝ)).sampleRate = FVal.fin 44100 ∧
    (10.0 : FVal ℝ) = FVal.fin 10 ∧
    ∃ s1, processChannel (FVal.exp Real.exp)
        (reset (prepare (init : DiodeClipper (FVal ℝ)) scenarioSpec)) 0 (10.0 :: rest) =
        some (List.replicate (rest.length + 1) FVal.nan, s1) ∧
      s1.state = [FVal.nan] := by
  refine ⟨Special.sampleRate_eq, ?_,
    ({ sampleRate := 44100.0, state := [FVal.nan] } : DiodeClipper (FVal ℝ)), ?_, rfl⟩
  · rw [Special.lit_def, Special.ofExact_fin _ (by norm_num) (by norm_num)]
    norm_num
  · rw [Special.reset_prepare_init, processChannel, Special.processSample_overflow]
    simp only [Special.processChannel_nan, List.replicate_succ]

/-- C10 (the code at the failing input): at v = 1.0, above the band, diodeCurrent has the
positive derivative (Is / (eta Vt)) exp(v / (eta Vt)), while diodeCurrentDerivative
returns 0, which is not the derivative; the same holds at every v above the band.  Below
the band and strictly inside it, diodeCurrentDerivative is the derivative. -/
theorem diodeCurrentDerivative_above_band_mismatch :
    (HasDerivAt (diodeCurrent Real.exp) ((Is / (eta * Vt)) * Real.exp (1 / (eta * Vt))) 1 ∧
      0 < (Is / (eta * Vt)) * Real.exp (1 / (eta * Vt)) ∧
      diodeCurrentDerivative Real.exp 1 = 0 ∧
      ¬ HasDerivAt (diodeCurrent Real.exp) (diodeCurrentDerivative Real.exp 1) 1) ∧
    (∀ v : ℝ, 0.45552 < v →
      ¬ HasDerivAt (diodeCurrent Real.exp) (diodeCurrentDerivative Real.exp v) v) ∧
    (∀ v : ℝ, v < -0.45552 →
      HasDerivAt (diodeCurrent Real.exp) (diodeCurrentDerivative Real.exp v) v) ∧
    (∀ v : ℝ, -0.45552 < v → v < 0.45552 →
      HasDerivAt (diodeCurrent Real.exp) (diodeCurrentDerivative Real.exp v) v) := by
  have habove : ∀ v : ℝ, 0.45552 < v →
      ¬ HasDerivAt (diodeCurrent Real.exp) (diodeCurrentDerivative Real.exp v) v := by
    intro v hv h
    have hd := Exact.diodeCurrent_hasDerivAt_above v hv
    have hpos : (0 : ℝ) < (Is / (eta * Vt)) * Real.exp (v / (eta * Vt)) :=
      mul_pos (div_pos Exact.Is_pos Exact.etaVt_pos) (Real.exp_pos _)
    have hz := Exact.diodeCurrentDerivative_outside Real.exp v (Or.inr hv)
    have := h.unique hd
    rw [hz] at this
    linarith
  refine ⟨⟨Exact.diodeCurrent_hasDerivAt_above 1 (by norm_num),
    mul_pos (div_pos Exact.Is_pos Exact.etaVt_pos) (Real.exp_pos _),
    Exact.diodeCurrentDerivative_outside _ 1 (Or.inr (by norm_num)),
    habove 1 (by norm_num)⟩, habove, Exact.diodeCurrent_hasDerivAt_below,
    Exact.diodeCurrent_hasDerivAt_inside⟩
